import Mathlib

/-!
Verification development for the daiv-jira activity-report plugin.

The definitions below are a shallow embedding of the Go sources under
`plugin/jira` (service.go, repository.go, formatters.go, models.go).
Go `time.Time` values are modelled as an absolute instant in Unix
milliseconds together with the fixed zone offset (in minutes) that the
value carries; `Equal`/`Before`/`After` compare the absolute instant
only, while formatting renders the wall clock of the stored zone, as in
Go.  Go slices that distinguish `nil` from an empty slice are modelled
as `Option (List α)` (`none` = nil slice); where the code only ranges
over a slice or takes its length, `nil` and `[]` behave alike, which the
helpers `glen` and `gtoList` capture.
-/

/-- Model of Go `time.Time`: absolute instant in Unix milliseconds plus
the fixed zone offset (minutes east of UTC) the value carries. -/
structure JTime where
  epochMillis : Int
  offsetMinutes : Int
deriving DecidableEq

/-- Go `t.Equal(u)`: compares the absolute instants. -/
def JTime.equalT (t u : JTime) : Bool := t.epochMillis == u.epochMillis

/-- Go `t.After(u)`. -/
def JTime.afterT (t u : JTime) : Bool := u.epochMillis < t.epochMillis

/-- Go `t.Before(u)`. -/
def JTime.beforeT (t u : JTime) : Bool := t.epochMillis < u.epochMillis

/-- models.go: `TimeRange` with `Start`/`End` instants. -/
structure TimeRange where
  Start : JTime
  End : JTime
deriving DecidableEq

/-- models.go: `IsInRange` returns
`(t.Equal(tr.Start) || t.After(tr.Start)) && t.Before(tr.End)`. -/
def TimeRange.IsInRange (tr : TimeRange) (t : JTime) : Bool :=
  (t.equalT tr.Start || t.afterT tr.Start) && t.beforeT tr.End

/-- Days from civil date (proleptic Gregorian), days since 1970-01-01.
Used to give the parsed wall-clock fields an absolute instant. -/
def daysFromCivil (y m d : Int) : Int :=
  let y := if m ≤ 2 then y - 1 else y
  let era := y.fdiv 400
  let yoe := y - era * 400
  let mp := if 2 < m then m - 3 else m + 9
  let doy := (153 * mp + 2).fdiv 5 + d - 1
  let doe := yoe * 365 + yoe.fdiv 4 - yoe.fdiv 100 + doy
  era * 146097 + doe - 719468

/-- Civil date (year, month, day) from days since 1970-01-01. -/
def civilFromDays (z : Int) : Int × Int × Int :=
  let z := z + 719468
  let era := z.fdiv 146097
  let doe := z - era * 146097
  let yoe := (doe - doe.fdiv 1460 + doe.fdiv 36524 - doe.fdiv 146096).fdiv 365
  let y := yoe + era * 400
  let doy := doe - (365 * yoe + yoe.fdiv 4 - yoe.fdiv 100)
  let mp := (5 * doy + 2).fdiv 153
  let d := doy - (153 * mp + 2).fdiv 5 + 1
  let m := if mp < 10 then mp + 3 else mp - 9
  (if m ≤ 2 then y + 1 else y, m, d)

def isLeapYear (y : Int) : Bool :=
  (y % 4 == 0 && y % 100 != 0) || y % 400 == 0

def daysInMonth (y m : Int) : Int :=
  if m = 2 then (if isLeapYear y then 29 else 28)
  else if m = 4 ∨ m = 6 ∨ m = 9 ∨ m = 11 then 30
  else 31

/-- Reads exactly `n` decimal digits from the front of `cs`, returning
their value and the remaining characters. -/
def readDigits : Nat → List Char → Option (Nat × List Char)
  | 0, cs => some (0, cs)
  | _ + 1, [] => none
  | n + 1, c :: cs =>
    if c.isDigit then
      match readDigits n cs with
      | some (v, rest) => some ((c.toNat - '0'.toNat) * 10 ^ n + v, rest)
      | none => none
    else none

/-- Consumes one expected literal character. -/
def readChar (c : Char) : List Char → Option (List Char)
  | [] => none
  | x :: xs => if x = c then some xs else none

/-- Embedding of Go `time.Parse("2006-01-02T15:04:05.000-0700", s)` as
used throughout service.go and repository.go: the raw created-timestamp
must match the fixed layout
`YYYY-MM-DDTHH:MM:SS.mmm(+|-)hhmm` exactly (no trailing characters),
with the calendar fields range-checked as Go does (month 1–12, day
within the month, hour 0–23, minute/second 0–59).  On success the
result is the absolute instant together with the parsed zone offset;
on any mismatch the result is `none` (Go returns a non-nil error). -/
def parseJiraTime (s : String) : Option JTime :=
  match readDigits 4 s.data with
  | none => none
  | some (y, r1) =>
  match readChar '-' r1 with
  | none => none
  | some r2 =>
  match readDigits 2 r2 with
  | none => none
  | some (mo, r3) =>
  match readChar '-' r3 with
  | none => none
  | some r4 =>
  match readDigits 2 r4 with
  | none => none
  | some (d, r5) =>
  match readChar 'T' r5 with
  | none => none
  | some r6 =>
  match readDigits 2 r6 with
  | none => none
  | some (h, r7) =>
  match readChar ':' r7 with
  | none => none
  | some r8 =>
  match readDigits 2 r8 with
  | none => none
  | some (mi, r9) =>
  match readChar ':' r9 with
  | none => none
  | some r10 =>
  match readDigits 2 r10 with
  | none => none
  | some (sec, r11) =>
  match readChar '.' r11 with
  | none => none
  | some r12 =>
  match readDigits 3 r12 with
  | none => none
  | some (ms, r13) =>
  match r13 with
  | [] => none
  | sign :: r14 =>
    if sign = '+' ∨ sign = '-' then
      match readDigits 2 r14 with
      | none => none
      | some (zh, r15) =>
      match readDigits 2 r15 with
      | none => none
      | some (zm, r16) =>
      if r16 = [] then
        if 1 ≤ mo ∧ mo ≤ 12 ∧ 1 ≤ (d : Int) ∧ (d : Int) ≤ daysInMonth y mo ∧
            h ≤ 23 ∧ mi ≤ 59 ∧ sec ≤ 59 then
          let offMin : Int := (if sign = '-' then -1 else 1) * (zh * 60 + zm)
          let wallSec : Int :=
            daysFromCivil y mo d * 86400 + h * 3600 + mi * 60 + sec
          some ⟨(wallSec - offMin * 60) * 1000 + ms, offMin⟩
        else none
      else none
    else none

-- Raw (tracker-native) data model: the fields of the go-jira library
-- values that the code reads.

/-- go-jira `User` (as referenced from comments and changelog entries). -/
structure RawUser where
  accountID : String
  displayName : String
deriving DecidableEq

/-- go-jira `Comment`: the fields the code reads. -/
structure RawComment where
  created : String
  author : RawUser
  body : String
deriving DecidableEq

/-- go-jira `ChangelogItems`: one field-level item of a history entry. -/
structure RawChangelogItem where
  field : String
  fromString : String
  toString : String
deriving DecidableEq

/-- go-jira `ChangelogHistory`: one changelog history entry. -/
structure RawHistory where
  created : String
  author : RawUser
  items : List RawChangelogItem
deriving DecidableEq

/-- go-jira `Issue`: the fields the code reads.  `comments` models
`issue.Fields.Comments` (a nil-able container holding the comment
list); `changelog` models `issue.Changelog` (nil-able, holding the
history list). -/
structure RawIssue where
  key : String
  summary : String
  status : String
  comments : Option (List RawComment)
  changelog : Option (List RawHistory)
deriving DecidableEq

-- Domain model (models.go).

/-- models.go `User`. -/
structure User where
  AccountID : String
  DisplayName : String
  Email : String
deriving DecidableEq

/-- models.go `Comment`. -/
structure Comment where
  Timestamp : JTime
  Author : String
  Content : String
deriving DecidableEq

/-- models.go `Change`. -/
structure Change where
  Timestamp : JTime
  Author : String
  Field : String
  FromValue : String
  ToValue : String
deriving DecidableEq

/-- models.go `Issue`.  The `Comments`/`Changes` slices are `nil` (here
`none`) unless the code assigns them, mirroring the Go zero value. -/
structure Issue where
  Key : String
  Summary : String
  Status : String
  Comments : Option (List Comment)
  Changes : Option (List Change)
deriving DecidableEq

/-- models.go `ActivityReport`. -/
structure ActivityReport where
  TimeRange : TimeRange
  User : User
  Issues : List Issue
deriving DecidableEq

/-- Go `len` on a nil-able slice: `len(nil) = 0`. -/
def glen : Option (List α) → Nat
  | none => 0
  | some l => l.length

/-- Ranging over a nil-able Go slice: `nil` iterates like `[]`. -/
def gtoList : Option (List α) → List α
  | none => []
  | some l => l

-- Activity extraction (repository.go `processComments` /
-- `processChangelog`; the bodies of service.go
-- `processCommentsSequential` / `processChangelogSequential` are
-- identical, so these definitions embed both).

/-- repository.go `processComments` (and service.go
`processCommentsSequential`): loop over the raw comments, `continue` on
a timestamp-parse failure, append a domain `Comment` when the parsed
timestamp is in range. -/
def processComments (comments : List RawComment) (timeRange : TimeRange) :
    List Comment :=
  match comments with
  | [] => []
  | c :: rest =>
    match parseJiraTime c.created with
    | none => processComments rest timeRange
    | some createdTime =>
      if timeRange.IsInRange createdTime then
        ⟨createdTime, c.author.displayName, c.body⟩ ::
          processComments rest timeRange
      else
        processComments rest timeRange

/-- repository.go `processChangelog` (and service.go
`processChangelogSequential`): loop over the history entries,
`continue` on a timestamp-parse failure, and when the entry's timestamp
is in range and its author's accountID equals the given user accountID,
append one domain `Change` per item of the entry. -/
def processChangelog (histories : List RawHistory) (timeRange : TimeRange)
    (userAccountID : String) : List Change :=
  match histories with
  | [] => []
  | h :: rest =>
    match parseJiraTime h.created with
    | none => processChangelog rest timeRange userAccountID
    | some createdTime =>
      if timeRange.IsInRange createdTime && h.author.accountID == userAccountID then
        h.items.map (fun item =>
          ⟨createdTime, h.author.displayName, item.field,
            item.fromString, item.toString⟩) ++
          processChangelog rest timeRange userAccountID
      else
        processChangelog rest timeRange userAccountID

-- Repository (repository.go).

/-- Body of the per-issue conversion inside repository.go `GetIssues`:
copy key/summary/status, and assign the `Comments`/`Changes` fields
only when the corresponding raw container is non-nil (otherwise they
keep the Go zero value, a nil slice). -/
def convertRawIssue (timeRange : TimeRange) (userID : String)
    (rawIssue : RawIssue) : Issue :=
  { Key := rawIssue.key
    Summary := rawIssue.summary
    Status := rawIssue.status
    Comments := rawIssue.comments.map (fun cs => processComments cs timeRange)
    Changes := rawIssue.changelog.map (fun hs =>
      processChangelog hs timeRange userID) }

/-- The conversion loop of repository.go `GetIssues`: starts from an
empty slice and appends one converted issue per raw issue, in order. -/
def processRawIssues (rawIssues : List RawIssue) (timeRange : TimeRange)
    (userID : String) : List Issue :=
  rawIssues.foldl (fun acc rawIssue =>
    acc ++ [convertRawIssue timeRange userID rawIssue]) []

/-- repository.go `GetIssues`: fetch raw issues (the outcome of
`fetchUpdatedIssues`, an external search call, is passed in as an
`Except`), propagate its error unchanged, and otherwise run the
conversion loop over every returned raw issue. -/
def GetIssuesGo (searchResult : Except String (List RawIssue))
    (timeRange : TimeRange) (userID : String) :
    Except String (List Issue) :=
  match searchResult with
  | .error e => .error e
  | .ok rawIssues => .ok (processRawIssues rawIssues timeRange userID)

-- Query builder (repository.go `buildJQLQuery`).

/-- models.go `QueryOptions` (the fields `buildJQLQuery` reads). -/
structure QueryOptions where
  JQLTemplate : String
  AssigneeCurrentUser : Bool
  Project : String
  StatusFilter : String
  InOpenSprints : Bool
deriving DecidableEq

/-- Go `fmt.Sprintf` restricted to `%s` verbs, which is how
`buildJQLQuery` fills the JQL template: each `%s` consumes the next
argument in order; a `%s` with no argument left renders Go's
`%!s(MISSING)`; leftover arguments are appended as Go's
`%!(EXTRA string=..., ...)` marker. -/
def sprintfS : List Char → List String → List Char
  | [], [] => []
  | [], a :: rest =>
    ("%!(EXTRA " ++ String.intercalate ", "
      ((a :: rest).map (fun x => "string=" ++ x)) ++ ")").data
  | '%' :: 's' :: cs, [] => "%!s(MISSING)".data ++ sprintfS cs []
  | '%' :: 's' :: cs, a :: rest => a.data ++ sprintfS cs rest
  | c :: cs, args => c :: sprintfS cs args

/-- Positional three-argument fill of the JQL template, as in
`fmt.Sprintf(opts.JQLTemplate, opts.Project, fromTime, toTime)`. -/
def sprintf3 (template a b c : String) : String :=
  ⟨sprintfS template.data [a, b, c]⟩

/-- repository.go `buildJQLQuery`: collect the filled template and the
optional conditions in a fixed order and join them with " AND ". -/
def buildJQLQuery (opts : QueryOptions) (fromTime toTime : String) : String :=
  let baseQuery := sprintf3 opts.JQLTemplate opts.Project fromTime toTime
  let conditions := [baseQuery]
  let conditions :=
    if opts.AssigneeCurrentUser then
      conditions ++ ["assignee = currentUser()"]
    else conditions
  let conditions :=
    if opts.StatusFilter ≠ "" then
      if opts.StatusFilter = "!Closed" then
        conditions ++ ["status != Closed"]
      else if opts.StatusFilter = "!= Closed" then
        conditions ++ ["status != Closed"]
      else
        conditions ++ ["status " ++ opts.StatusFilter]
    else conditions
  let conditions :=
    if opts.InOpenSprints then
      conditions ++ ["sprint IN openSprints()"]
    else conditions
  String.intercalate " AND " conditions

-- Concurrent aggregator (service.go).

/-- Which execution path a service.go processing function takes:
a synchronous loop on the calling goroutine, or a goroutine-per-item
fan-out drained through a result channel. -/
inductive ExecStrategy where
  | sequentialExec : ExecStrategy
  | fanOutExec : ExecStrategy
deriving DecidableEq

/-- Dispatch of service.go `processComments`: the empty list returns
immediately and a list of fewer than 5 comments is handed to
`processCommentsSequential` (both on the calling goroutine); 5 or more
comments fan out one goroutine per comment. -/
def processCommentsStrategy (comments : List RawComment) : ExecStrategy :=
  if comments.length < 5 then .sequentialExec else .fanOutExec

/-- Dispatch of service.go `processChangelog`: the empty list returns
immediately and fewer than 5 histories go to
`processChangelogSequential`; 5 or more histories fan out one goroutine
per history entry. -/
def processChangelogStrategy (histories : List RawHistory) : ExecStrategy :=
  if histories.length < 5 then .sequentialExec else .fanOutExec

/-- Dispatch of service.go `processIssues`: only the empty list is
answered on the calling goroutine; any non-empty issue list spawns one
goroutine per issue (there is no size threshold and no sequential
path). -/
def processIssuesStrategy (issues : List RawIssue) : ExecStrategy :=
  if issues.length = 0 then .sequentialExec else .fanOutExec

/-- The per-issue work done by each worker goroutine of service.go
`processIssues` is deterministic except for the order of the comment /
change lists when those inner lists themselves fan out; this predicate
records what every admissible worker output shares with the
deterministic conversion of its input issue: the key, summary and
status are copied, and the `Comments`/`Changes` fields are nil exactly
when the raw containers are nil. -/
def WorkerOutputFor (_timeRange : TimeRange) (_user : User)
    (rawIssue : RawIssue) (outIssue : Issue) : Prop :=
  outIssue.Key = rawIssue.key ∧ outIssue.Summary = rawIssue.summary ∧
    outIssue.Status = rawIssue.status ∧
    (outIssue.Comments.isSome ↔ rawIssue.comments.isSome) ∧
    (outIssue.Changes.isSome ↔ rawIssue.changelog.isSome)

/-- Channel semantics of service.go `processIssues` in fan-out mode:
every one of the `len(issues)` worker goroutines sends exactly one
processed issue on the buffered result channel, the channel is closed
once all workers are done, and the drain loop appends the received
issues in channel order — so the output is some permutation of a list
holding one admissible worker output per input issue, in input
order. -/
def ProcessIssuesFanOut (issues : List RawIssue) (timeRange : TimeRange)
    (user : User) (out : List Issue) : Prop :=
  ∃ workerResults : List Issue,
    List.Forall₂ (WorkerOutputFor timeRange user) issues workerResults ∧
      out.Perm workerResults

-- Time formatting (the Go layout strings used by the formatters).

/-- Decimal rendering of a natural, left-padded with zeros to width `w`. -/
def padNat (w : Nat) (n : Nat) : String :=
  let s := toString n
  ⟨List.replicate (w - s.length) '0'⟩ ++ s

/-- Wall-clock components (year, month, day, hour, minute, second) of a
time value in its stored zone, as Go `Format` renders them. -/
def JTime.wallClock (t : JTime) : Int × Int × Int × Int × Int × Int :=
  let wallSec := (t.epochMillis + t.offsetMinutes * 60000).fdiv 1000
  let days := wallSec.fdiv 86400
  let secOfDay := wallSec - days * 86400
  let c := civilFromDays days
  (c.1, c.2.1, c.2.2, secOfDay.fdiv 3600, (secOfDay.fdiv 60) % 60,
    secOfDay % 60)

/-- Go layout `"2006-01-02"`. -/
def fmtDate (t : JTime) : String :=
  let w := t.wallClock
  padNat 4 w.1.toNat ++ "-" ++ padNat 2 w.2.1.toNat ++ "-" ++
    padNat 2 w.2.2.1.toNat

/-- Go layout `"2006-01-02 15:04"`. -/
def fmtDateTimeMin (t : JTime) : String :=
  let w := t.wallClock
  fmtDate t ++ " " ++ padNat 2 w.2.2.2.1.toNat ++ ":" ++
    padNat 2 w.2.2.2.2.1.toNat

/-- Go layout `"2006-01-02 15:04:05"`. -/
def fmtDateTimeSec (t : JTime) : String :=
  let w := t.wallClock
  fmtDateTimeMin t ++ ":" ++ padNat 2 w.2.2.2.2.2.toNat

/-- Go `time.RFC3339`: date, `T`, time, then `Z` for a zero offset or a
signed `hh:mm` offset. -/
def fmtRFC3339 (t : JTime) : String :=
  let zone :=
    if t.offsetMinutes = 0 then "Z"
    else
      (if t.offsetMinutes < 0 then "-" else "+") ++
        padNat 2 (t.offsetMinutes.natAbs / 60) ++ ":" ++
        padNat 2 (t.offsetMinutes.natAbs % 60)
  fmtDate t ++ "T" ++
    (let w := t.wallClock
     padNat 2 w.2.2.2.1.toNat ++ ":" ++ padNat 2 w.2.2.2.2.1.toNat ++ ":" ++
       padNat 2 w.2.2.2.2.2.toNat) ++ zone

-- String escaping as performed by the Go encoders the formatters call.

/-- Two lowercase hex digits of `n % 256`. -/
def hex2 (n : Nat) : String :=
  let dig := fun k => "0123456789abcdef".data.getD k '0'
  ⟨[dig ((n / 16) % 16), dig (n % 16)]⟩

/-- `encoding/json` string escaping with HTML escaping on (the
default used by `json.MarshalIndent`). -/
def jsonEscapeChar (c : Char) : List Char :=
  if c = '"' then ['\\', '"']
  else if c = '\\' then ['\\', '\\']
  else if c = '\n' then ['\\', 'n']
  else if c = '\r' then ['\\', 'r']
  else if c = '\t' then ['\\', 't']
  else if c = '<' then "\\u003c".data
  else if c = '>' then "\\u003e".data
  else if c = '&' then "\\u0026".data
  else if c.toNat < 32 then ("\\u00" ++ hex2 c.toNat).data
  else [c]

def goJsonEscape (s : String) : String :=
  ⟨s.data.flatMap jsonEscapeChar⟩

/-- `encoding/xml` character-data escaping. -/
def xmlEscapeChar (c : Char) : List Char :=
  if c = '&' then "&amp;".data
  else if c = '<' then "&lt;".data
  else if c = '>' then "&gt;".data
  else if c = Char.ofNat 39 then "&#39;".data
  else if c = '"' then "&#34;".data
  else if c = '\t' then "&#x9;".data
  else if c = '\n' then "&#xA;".data
  else if c = '\r' then "&#xD;".data
  else [c]

def goXmlEscape (s : String) : String :=
  ⟨s.data.flatMap xmlEscapeChar⟩

-- Formatters (formatters.go).

/-- formatters.go `FormattedContent`. -/
structure FormattedContent where
  ContentType : String
  Content : String
deriving DecidableEq

/-- Quoted, escaped JSON string literal. -/
def jsonQ (s : String) : String := "\"" ++ goJsonEscape s ++ "\""

/-- Multi-line JSON object rendering as `json.MarshalIndent` with
prefix `""` and indent `"  "` lays it out; `ind` is the indentation of
the object's opening brace and the field values are already
rendered. -/
def jsonObjLines (ind : String) (fields : List (String × String)) : String :=
  "\x7b\n" ++
    String.intercalate ",\n"
      (fields.map (fun p => ind ++ "  \"" ++ p.1 ++ "\": " ++ p.2)) ++
    "\n" ++ ind ++ "\x7d"

/-- Multi-line JSON array rendering as `json.MarshalIndent` lays it
out: an empty slice renders `[]` in place. -/
def jsonArrLines (ind : String) (elems : List String) : String :=
  if elems.isEmpty then "[]"
  else
    "[\n" ++ String.intercalate ",\n" (elems.map (fun e => ind ++ "  " ++ e)) ++
      "\n" ++ ind ++ "]"

/-- formatters.go `JSONFormatter.Format`: empty report short-circuits
to the literal empty object; otherwise the report is copied into the
JSON structure (timeRange with RFC3339 start/end, user with
displayName and email only, issues with key/status/summary and
comment/change arrays) and rendered as `json.MarshalIndent` with
two-space indent does. -/
def jsonFormat (report : ActivityReport) : FormattedContent :=
  if report.Issues.length = 0 then
    ⟨"application/json", "\x7b\x7d"⟩
  else
    let renderComment := fun (c : Comment) =>
      jsonObjLines "        "
        [("timestamp", jsonQ (fmtRFC3339 c.Timestamp)),
          ("author", jsonQ c.Author), ("content", jsonQ c.Content)]
    let renderChange := fun (c : Change) =>
      jsonObjLines "        "
        [("timestamp", jsonQ (fmtRFC3339 c.Timestamp)),
          ("author", jsonQ c.Author), ("field", jsonQ c.Field),
          ("from", jsonQ c.FromValue), ("to", jsonQ c.ToValue)]
    let renderIssue := fun (i : Issue) =>
      jsonObjLines "    "
        [("key", jsonQ i.Key), ("status", jsonQ i.Status),
          ("summary", jsonQ i.Summary),
          ("comments", jsonArrLines "      "
            ((gtoList i.Comments).map renderComment)),
          ("changes", jsonArrLines "      "
            ((gtoList i.Changes).map renderChange))]
    let timeRangeObj :=
      jsonObjLines "  "
        [("start", jsonQ (fmtRFC3339 report.TimeRange.Start)),
          ("end", jsonQ (fmtRFC3339 report.TimeRange.End))]
    let userObj :=
      jsonObjLines "  "
        [("displayName", jsonQ report.User.DisplayName),
          ("email", jsonQ report.User.Email)]
    let issuesArr := jsonArrLines "  " (report.Issues.map renderIssue)
    ⟨"application/json",
      jsonObjLines ""
        [("timeRange", timeRangeObj), ("user", userObj),
          ("issues", issuesArr)]⟩

/-- One `<comment>` element of the XML report. -/
def xmlCommentRender (c : Comment) : String :=
  "      <comment>\n" ++
    "        <timestamp>" ++ goXmlEscape (fmtDateTimeSec c.Timestamp) ++
      "</timestamp>\n" ++
    "        <author>" ++ goXmlEscape c.Author ++ "</author>\n" ++
    "        <content>" ++ goXmlEscape c.Content ++ "</content>\n" ++
    "      </comment>"

/-- One `<change>` element of the XML report. -/
def xmlChangeRender (c : Change) : String :=
  "      <change>\n" ++
    "        <timestamp>" ++ goXmlEscape (fmtDateTimeSec c.Timestamp) ++
      "</timestamp>\n" ++
    "        <author>" ++ goXmlEscape c.Author ++ "</author>\n" ++
    "        <field>" ++ goXmlEscape c.Field ++ "</field>\n" ++
    "        <from>" ++ goXmlEscape c.FromValue ++ "</from>\n" ++
    "        <to>" ++ goXmlEscape c.ToValue ++ "</to>\n" ++
    "      </change>"

/-- One `<issue>` element of the XML report. -/
def xmlIssueRender (i : Issue) : String :=
  "  <issue>\n" ++
    "    <key>" ++ goXmlEscape i.Key ++ "</key>\n" ++
    "    <status>" ++ goXmlEscape i.Status ++ "</status>\n" ++
    "    <summary>" ++ goXmlEscape i.Summary ++ "</summary>\n" ++
    (if (gtoList i.Comments).isEmpty then "    <comments></comments>\n"
     else
       "    <comments>\n" ++
         String.intercalate "\n" ((gtoList i.Comments).map xmlCommentRender) ++
         "\n    </comments>\n") ++
    (if (gtoList i.Changes).isEmpty then "    <changelog></changelog>\n"
     else
       "    <changelog>\n" ++
         String.intercalate "\n" ((gtoList i.Changes).map xmlChangeRender) ++
         "\n    </changelog>\n") ++
    "  </issue>"

/-- formatters.go `XMLFormatter.Format`: empty report short-circuits to
the literal empty root element; otherwise the report is copied into the
XML structure (one issue element per issue with key/status/summary and
nested comment/change collections, timestamps in
"2006-01-02 15:04:05" layout) and rendered as `xml.MarshalIndent` with
two-space indent does, preceded by `xml.Header`. -/
def xmlFormat (report : ActivityReport) : FormattedContent :=
  if report.Issues.length = 0 then
    ⟨"application/xml", "<jira_report></jira_report>"⟩
  else
    ⟨"application/xml",
      "<?xml version=\"1.0\" encoding=\"UTF-8\"?>\n" ++
        "<jira_report>\n" ++
        String.intercalate "\n" (report.Issues.map xmlIssueRender) ++
        "\n</jira_report>"⟩

/-- The issues of a report carrying the given status, in report order
(this is the group slice the `statusGroups` map of the markdown and
HTML formatters accumulates for that status). -/
def statusGroupIssues (report : ActivityReport) (status : String) :
    List Issue :=
  report.Issues.filter (fun i => i.Status == status)

/-- The distinct status values among a report's issues: the key set of
the `statusGroups` map the markdown and HTML formatters build (as a
list in one arbitrary but fixed order; only its underlying set
matters, since map iteration order is unspecified). -/
def statusKeys (report : ActivityReport) : List String :=
  (report.Issues.map Issue.Status).dedup

/-- An admissible iteration order over the `statusGroups` map: Go map
iteration visits every key exactly once, in an unspecified order, so
the admissible orders are exactly the permutations of the key set. -/
def ValidStatusOrder (report : ActivityReport) (order : List String) : Prop :=
  order.Perm (statusKeys report)

/-- One issue block of the markdown report. -/
def mdIssueRender (issue : Issue) : String :=
  "### [" ++ issue.Key ++ "] " ++ issue.Summary ++ "\n\n" ++
    (if 0 < glen issue.Changes then
      "#### Changes\n\n" ++
        "| Time | Field | From | To |\n" ++
        "|------|-------|------|----|\n" ++
        String.join ((gtoList issue.Changes).map (fun change =>
          "| " ++ fmtDateTimeMin change.Timestamp ++ " | " ++
            change.Field ++ " | " ++ change.FromValue ++ " | " ++
            change.ToValue ++ " |\n")) ++ "\n"
    else "") ++
    (if 0 < glen issue.Comments then
      "#### Comments\n\n" ++
        String.join ((gtoList issue.Comments).map (fun comment =>
          "**" ++ comment.Author ++ "** - " ++
            fmtDateTimeMin comment.Timestamp ++ "\n\n" ++
            comment.Content ++ "\n\n"))
    else "") ++
    "---\n\n"

/-- formatters.go `MarkdownFormatter.Format`.  `statusOrder` is the
order in which the ranged-over `statusGroups` map yields its keys; the
report header and the per-group sections are otherwise built exactly as
the Go string builder does. -/
def markdownFormat (statusOrder : List String) (report : ActivityReport) :
    FormattedContent :=
  if report.Issues.length = 0 then
    ⟨"text/markdown", "No activity found for the specified time range."⟩
  else
    ⟨"text/markdown",
      "# Jira Activity Report\n\n" ++
        "**Time Range:** " ++ fmtDate report.TimeRange.Start ++ " to " ++
          fmtDate report.TimeRange.End ++ "\n\n" ++
        "**User:** " ++ report.User.DisplayName ++ " (" ++
          report.User.Email ++ ")\n\n" ++
        String.join (statusOrder.map (fun status =>
          "## " ++ status ++ " Issues\n\n" ++
            String.join ((statusGroupIssues report status).map
              mdIssueRender)))⟩

/-- The fixed HTML document head with the embedded stylesheet. -/
def htmlHead : String :=
  "<!DOCTYPE html>\n<html>\n<head>\n" ++
    "<title>Jira Activity Report</title>\n" ++
    "<style>\n" ++
    "body \x7b font-family: Arial, sans-serif; margin: 20px; \x7d\n" ++
    "h1 \x7b color: #0052CC; \x7d\n" ++
    "h2 \x7b color: #172B4D; border-bottom: 1px solid #DFE1E6; padding-bottom: 8px; \x7d\n" ++
    "h3 \x7b margin-top: 20px; \x7d\n" ++
    ".issue \x7b background-color: #F4F5F7; border-radius: 3px; padding: 15px; margin-bottom: 15px; \x7d\n" ++
    ".issue-key \x7b color: #0052CC; font-weight: bold; \x7d\n" ++
    ".issue-summary \x7b font-size: 16px; margin-bottom: 10px; \x7d\n" ++
    ".metadata \x7b color: #6B778C; font-size: 14px; margin-bottom: 15px; \x7d\n" ++
    ".changes, .comments \x7b margin-top: 10px; \x7d\n" ++
    ".change, .comment \x7b background-color: white; border: 1px solid #DFE1E6; padding: 10px; margin-bottom: 8px; \x7d\n" ++
    ".author \x7b color: #0052CC; font-weight: bold; \x7d\n" ++
    ".timestamp \x7b color: #6B778C; font-size: 12px; \x7d\n" ++
    "</style>\n</head>\n<body>\n"

/-- One issue block of the HTML report. -/
def htmlIssueRender (issue : Issue) : String :=
  "<div class=\"issue\">\n" ++
    "<h3><span class=\"issue-key\">[" ++ issue.Key ++
      "]</span> <span class=\"issue-summary\">" ++ issue.Summary ++
      "</span></h3>\n" ++
    (if 0 < glen issue.Changes then
      "<div class=\"changes\">\n<h4>Changes</h4>\n" ++
        String.join ((gtoList issue.Changes).map (fun change =>
          "<div class=\"change\">\n" ++
            "<p><span class=\"author\">" ++ change.Author ++
              "</span> changed <strong>" ++ change.Field ++
              "</strong> from \"" ++ change.FromValue ++ "\" to \"" ++
              change.ToValue ++ "\"</p>\n" ++
            "<p class=\"timestamp\">" ++ fmtDateTimeSec change.Timestamp ++
              "</p>\n" ++
            "</div>\n")) ++
        "</div>\n"
    else "") ++
    (if 0 < glen issue.Comments then
      "<div class=\"comments\">\n<h4>Comments</h4>\n" ++
        String.join ((gtoList issue.Comments).map (fun comment =>
          "<div class=\"comment\">\n" ++
            "<p><span class=\"author\">" ++ comment.Author ++
              "</span></p>\n" ++
            "<p>" ++ comment.Content ++ "</p>\n" ++
            "<p class=\"timestamp\">" ++ fmtDateTimeSec comment.Timestamp ++
              "</p>\n" ++
            "</div>\n")) ++
        "</div>\n"
    else "") ++
    "</div>\n"

/-- formatters.go `HTMLFormatter.Format`.  `statusOrder` plays the same
role as for the markdown formatter. -/
def htmlFormat (statusOrder : List String) (report : ActivityReport) :
    FormattedContent :=
  if report.Issues.length = 0 then
    ⟨"text/html",
      "<html><body><h1>Jira Activity Report</h1><p>No activity found for the specified time range.</p></body></html>"⟩
  else
    ⟨"text/html",
      htmlHead ++
        "<h1>Jira Activity Report</h1>\n" ++
        "<div class=\"metadata\">\n" ++
        "<p><strong>Time Range:</strong> " ++ fmtDate report.TimeRange.Start ++
          " to " ++ fmtDate report.TimeRange.End ++ "</p>\n" ++
        "<p><strong>User:</strong> " ++ report.User.DisplayName ++ " (" ++
          report.User.Email ++ ")</p>\n" ++
        "</div>\n" ++
        String.join (statusOrder.map (fun status =>
          "<h2>" ++ status ++ " Issues</h2>\n" ++
            String.join ((statusGroupIssues report status).map
              htmlIssueRender))) ++
        "</body>\n</html>"⟩

-- Concrete example data used by the closed witness and counterexample
-- theorems below (values mirror the repository's own test fixtures).

/-- A report with no issues. -/
def emptyReportEx : ActivityReport :=
  ⟨⟨⟨0, 0⟩, ⟨0, 0⟩⟩, ⟨"user123", "Test User", "test@example.com"⟩, []⟩

/-- The time range [2023-01-01T00:00Z, 2023-01-02T00:00Z) used by the
repository's tests. -/
def rangeEx : TimeRange := ⟨⟨1672531200000, 0⟩, ⟨1672617600000, 0⟩⟩

/-- A comment whose created-timestamp parses and lies inside `rangeEx`. -/
def c4GoodComment : RawComment :=
  ⟨"2023-01-01T12:00:00.000-0700", ⟨"user123", "Test User"⟩, "first"⟩

/-- A comment whose created-timestamp does not match the layout. -/
def c4BadComment : RawComment :=
  ⟨"not-a-timestamp", ⟨"user123", "Test User"⟩, "broken"⟩

/-- A second parseable in-range comment. -/
def c4GoodComment2 : RawComment :=
  ⟨"2023-01-01T10:00:00.000-0700", ⟨"user123", "Test User"⟩, "second"⟩

/-- A history entry whose created-timestamp does not match the layout. -/
def c4BadHistory : RawHistory :=
  ⟨"2023/01/01 10:00", ⟨"user123", "Test User"⟩,
    [⟨"status", "Open", "In Progress"⟩]⟩

/-- A history entry with a parseable in-range timestamp and a matching
author. -/
def c4GoodHistory : RawHistory :=
  ⟨"2023-01-01T10:00:00.000-0700", ⟨"user123", "Test User"⟩,
    [⟨"status", "Open", "In Progress"⟩]⟩

/-- The report user of the repository's tests. -/
def userEx : User := ⟨"user123", "Test User", "test@example.com"⟩

/-- Five raw issues with nil comment and changelog containers. -/
def c7Issues : List RawIssue :=
  [⟨"JIRA-1", "Issue 1", "Open", none, none⟩,
    ⟨"JIRA-2", "Issue 2", "Open", none, none⟩,
    ⟨"JIRA-3", "Issue 3", "Done", none, none⟩,
    ⟨"JIRA-4", "Issue 4", "Open", none, none⟩,
    ⟨"JIRA-5", "Issue 5", "Done", none, none⟩]

/-- One admissible drain order of the `c7Issues` fan-out. -/
def c7Out : List Issue := c7Issues.map (convertRawIssue rangeEx "user123")

/-- A report whose two issues carry two different statuses. -/
def c9MultiReport : ActivityReport :=
  ⟨rangeEx, userEx,
    [⟨"JIRA-1", "First issue", "Open", none, none⟩,
      ⟨"JIRA-2", "Second issue", "Done", none, none⟩]⟩

/-- A report whose issues all carry a single status. -/
def c9SingleReport : ActivityReport :=
  ⟨rangeEx, userEx,
    [⟨"JIRA-123", "Test Issue", "In Progress", none, none⟩]⟩

/-- A comment that parses but lies before `rangeEx`. -/
def c10StaleComment : RawComment :=
  ⟨"2020-01-01T00:00:00.000+0000", ⟨"user123", "Test User"⟩, "old"⟩

/-- A raw issue whose containers are present but whose entries are all
filtered out. -/
def c10RawPresent : RawIssue :=
  ⟨"JIRA-123", "Test Issue", "Open", some [c10StaleComment], some []⟩

/-- A raw issue with nil comment and changelog containers. -/
def c10RawNil : RawIssue := ⟨"JIRA-9", "No containers", "Open", none, none⟩


-- Helper lemmas.

theorem processComments_cons_none (c : RawComment) (rest : List RawComment)
    (tr : TimeRange) (hc : parseJiraTime c.created = none) :
    processComments (c :: rest) tr = processComments rest tr := by
  simp [processComments, hc]

theorem processChangelog_cons_none (h : RawHistory) (rest : List RawHistory)
    (tr : TimeRange) (uid : String) (hc : parseJiraTime h.created = none) :
    processChangelog (h :: rest) tr uid = processChangelog rest tr uid := by
  simp [processChangelog, hc]

theorem processComments_append (l₁ l₂ : List RawComment) (tr : TimeRange) :
    processComments (l₁ ++ l₂) tr =
      processComments l₁ tr ++ processComments l₂ tr := by
  induction l₁ with
  | nil => simp [processComments]
  | cons c rest ih =>
    cases hp : parseJiraTime c.created with
    | none => simp [processComments, hp, ih]
    | some t =>
      by_cases hin : tr.IsInRange t <;> simp [processComments, hp, hin, ih]

theorem processChangelog_append (l₁ l₂ : List RawHistory) (tr : TimeRange)
    (uid : String) :
    processChangelog (l₁ ++ l₂) tr uid =
      processChangelog l₁ tr uid ++ processChangelog l₂ tr uid := by
  induction l₁ with
  | nil => simp [processChangelog]
  | cons h rest ih =>
    cases hp : parseJiraTime h.created with
    | none => simp [processChangelog, hp, ih]
    | some t =>
      by_cases hin : (tr.IsInRange t && h.author.accountID == uid) = true <;>
        simp [processChangelog, hp, hin, ih]

theorem foldl_append_singleton (f : α → β) (l : List α) (acc : List β) :
    l.foldl (fun a x => a ++ [f x]) acc = acc ++ l.map f := by
  induction l generalizing acc with
  | nil => simp
  | cons x xs ih => simp [ih]

theorem processRawIssues_eq_map (raws : List RawIssue) (tr : TimeRange)
    (uid : String) :
    processRawIssues raws tr uid = raws.map (convertRawIssue tr uid) := by
  simpa [processRawIssues] using
    foldl_append_singleton (convertRawIssue tr uid) raws []

theorem forall₂_worker_keys (tr : TimeRange) (u : User)
    (issues : List RawIssue) (ws : List Issue)
    (h : List.Forall₂ (WorkerOutputFor tr u) issues ws) :
    ws.map Issue.Key = issues.map RawIssue.key := by
  induction h with
  | nil => rfl
  | cons h₁ _ ih => simp [h₁.1, ih]

theorem perm_short_eq {l m : List α} (h : l.Perm m) (hm : m.length ≤ 1) :
    l = m := by
  match m, hm with
  | [], _ => exact List.Perm.eq_nil h
  | [a], _ => exact List.perm_singleton.mp h

-- Claim theorems.

/-- C1: for every changelog history list, time range and actor account
ID, change extraction (processChangelog / processChangelogSequential)
produces exactly one Change per field-level item of each history entry
whose timestamp parses, lies in [start, end) and whose author's
accountID equals the actor's, each Change carrying the entry's
timestamp and author display name; comment extraction (processComments)
applies only the time-window test and ignores the comment's author. -/
theorem c1_extraction_rules (histories : List RawHistory) (tr : TimeRange)
    (actorID : String) (comments : List RawComment) :
    processChangelog histories tr actorID =
      histories.flatMap (fun h =>
        match parseJiraTime h.created with
        | none => []
        | some t =>
          if tr.IsInRange t ∧ h.author.accountID = actorID then
            h.items.map (fun item =>
              ⟨t, h.author.displayName, item.field, item.fromString,
                item.toString⟩)
          else []) ∧
    processComments comments tr =
      comments.filterMap (fun c =>
        match parseJiraTime c.created with
        | none => none
        | some t =>
          if tr.IsInRange t then
            some ⟨t, c.author.displayName, c.body⟩
          else none) := by
  constructor
  · induction histories with
    | nil => simp [processChangelog]
    | cons h rest ih =>
      cases hp : parseJiraTime h.created with
      | none => simp [processChangelog, hp, ih]
      | some t =>
        by_cases hin : tr.IsInRange t = true ∧ h.author.accountID = actorID
        · simp [processChangelog, hp, hin.1, hin.2, ih]
        · rw [Decidable.not_and_iff_or_not] at hin
          rcases hin with hin | hin <;>
            simp [processChangelog, hp, hin, ih]
  · induction comments with
    | nil => simp [processComments]
    | cons c rest ih =>
      cases hp : parseJiraTime c.created with
      | none => simp [processComments, hp, ih]
      | some t =>
        by_cases hin : tr.IsInRange t = true <;>
          simp [processComments, hp, hin, ih]

/-- C2: when a report's Issues sequence is empty, each formatter
returns its fixed minimal placeholder with its content type: JSON the
empty object, XML the empty root element, markdown and HTML their
literal no-activity sentence — never a rendering of the full
template. -/
theorem c2_empty_placeholders (r : ActivityReport) (h : r.Issues = [])
    (o o' : List String) :
    jsonFormat r = ⟨"application/json", "\x7b\x7d"⟩ ∧
    xmlFormat r = ⟨"application/xml", "<jira_report></jira_report>"⟩ ∧
    markdownFormat o r =
      ⟨"text/markdown", "No activity found for the specified time range."⟩ ∧
    htmlFormat o' r =
      ⟨"text/html",
        "<html><body><h1>Jira Activity Report</h1><p>No activity found for the specified time range.</p></body></html>"⟩ := by
  simp [jsonFormat, xmlFormat, markdownFormat, htmlFormat, h]

/-- Witness for C2 at a concrete empty report. -/
theorem c2_empty_placeholders_witness :
    jsonFormat emptyReportEx = ⟨"application/json", "\x7b\x7d"⟩ ∧
    xmlFormat emptyReportEx =
      ⟨"application/xml", "<jira_report></jira_report>"⟩ ∧
    markdownFormat [] emptyReportEx =
      ⟨"text/markdown", "No activity found for the specified time range."⟩ ∧
    htmlFormat [] emptyReportEx =
      ⟨"text/html",
        "<html><body><h1>Jira Activity Report</h1><p>No activity found for the specified time range.</p></body></html>"⟩ :=
  c2_empty_placeholders emptyReportEx rfl [] []

/-- C3: buildJQLQuery returns the filter template filled positionally
with (project, from, to), followed conjunctively (joined by " AND ") in
a fixed order by the assignee clause iff the flag is set, a status
clause iff the status filter is non-empty, and the open-sprints clause
iff that flag is set; the status clause is "status != Closed" for
either accepted not-closed shorthand spelling and otherwise "status "
followed by the filter verbatim. -/
theorem c3_jql_query_shape (opts : QueryOptions) (fromTime toTime : String) :
    buildJQLQuery opts fromTime toTime =
      String.intercalate " AND "
        ([sprintf3 opts.JQLTemplate opts.Project fromTime toTime] ++
          (if opts.AssigneeCurrentUser then ["assignee = currentUser()"]
            else []) ++
          (if opts.StatusFilter ≠ "" then
            [if opts.StatusFilter = "!Closed" ∨
                opts.StatusFilter = "!= Closed" then
              "status != Closed"
            else "status " ++ opts.StatusFilter]
          else []) ++
          (if opts.InOpenSprints then ["sprint IN openSprints()"] else [])) := by
  unfold buildJQLQuery
  split_ifs <;> simp_all

/-- C4: a comment or changelog history entry whose raw
created-timestamp fails to parse against the fixed layout is silently
skipped: no error, no emitted Comment or Change for it, and every other
item of the batch is processed as if the failing item were absent. -/
theorem c4_parse_failure_skipped (tr : TimeRange) (uid : String)
    (c : RawComment) (pre post : List RawComment)
    (h : RawHistory) (hpre hpost : List RawHistory)
    (hc : parseJiraTime c.created = none)
    (hh : parseJiraTime h.created = none) :
    processComments (pre ++ c :: post) tr =
      processComments (pre ++ post) tr ∧
    processChangelog (hpre ++ h :: hpost) tr uid =
      processChangelog (hpre ++ hpost) tr uid := by
  constructor
  · rw [processComments_append, processComments_append,
      processComments_cons_none c post tr hc]
  · rw [processChangelog_append, processChangelog_append,
      processChangelog_cons_none h hpost tr uid hh]

/-- Witness for C4 at concrete batches holding one malformed item each. -/
theorem c4_parse_failure_skipped_witness :
    processComments [c4GoodComment, c4BadComment, c4GoodComment2] rangeEx =
      processComments [c4GoodComment, c4GoodComment2] rangeEx ∧
    processChangelog [c4BadHistory, c4GoodHistory] rangeEx "user123" =
      processChangelog [c4GoodHistory] rangeEx "user123" :=
  c4_parse_failure_skipped rangeEx "user123" c4BadComment [c4GoodComment]
    [c4GoodComment2] c4BadHistory [] [c4GoodHistory] (by decide) (by decide)

/-- C5: for every list of raw issues returned by the search, GetIssues
returns one domain Issue per raw issue, in input order — keys in input
order, same length, no issue-level filtering (issues whose filtered
comment and change sequences are empty are still included, as the map
characterization makes every raw issue contribute). -/
theorem c5_one_issue_per_raw (raws : List RawIssue) (tr : TimeRange)
    (uid : String) :
    GetIssuesGo (.ok raws) tr uid =
      .ok (raws.map (convertRawIssue tr uid)) ∧
    (processRawIssues raws tr uid).map Issue.Key = raws.map RawIssue.key ∧
    (processRawIssues raws tr uid).length = raws.length := by
  refine ⟨?_, ?_, ?_⟩
  all_goals
    simp [GetIssuesGo, processRawIssues_eq_map, List.map_map,
      Function.comp, convertRawIssue]

/-- C6 counterexample: a single-issue list is below the threshold of 5,
yet service.go processIssues takes the fan-out path (one goroutine per
issue), not the sequential path — refuting the claim that every
collection with fewer than 5 items is processed sequentially. -/
theorem c6_isseq_counterexample :
    ([(⟨"JIRA-1", "Test Issue", "Open", none, none⟩ : RawIssue)].length < 5) ∧
    processIssuesStrategy [⟨"JIRA-1", "Test Issue", "Open", none, none⟩] =
      .fanOutExec ∧
    processIssuesStrategy [⟨"JIRA-1", "Test Issue", "Open", none, none⟩] ≠
      .sequentialExec := by
  decide

/-- C6 amended: comment and changelog collections below 5 items are
processed sequentially and fan out at 5 or more; issue collections have
no threshold — only the empty list is handled on the calling goroutine,
and every non-empty issue list fans out one goroutine per issue. -/
theorem c6_amended_dispatch (comments : List RawComment)
    (histories : List RawHistory) (issues : List RawIssue) :
    (comments.length < 5 →
      processCommentsStrategy comments = .sequentialExec) ∧
    (5 ≤ comments.length → processCommentsStrategy comments = .fanOutExec) ∧
    (histories.length < 5 →
      processChangelogStrategy histories = .sequentialExec) ∧
    (5 ≤ histories.length →
      processChangelogStrategy histories = .fanOutExec) ∧
    (issues = [] → processIssuesStrategy issues = .sequentialExec) ∧
    (issues ≠ [] → processIssuesStrategy issues = .fanOutExec) := by
  refine ⟨?_, ?_, ?_, ?_, ?_, ?_⟩ <;> intro h <;>
    simp [processCommentsStrategy, processChangelogStrategy,
      processIssuesStrategy, h, List.length_eq_zero]

/-- Witness for the amended C6 at concrete small collections. -/
theorem c6_amended_dispatch_witness :
    processCommentsStrategy [c4GoodComment] = .sequentialExec ∧
    processIssuesStrategy [⟨"JIRA-1", "Test Issue", "Open", none, none⟩] =
      .fanOutExec :=
  ⟨(c6_amended_dispatch [c4GoodComment] []
      [⟨"JIRA-1", "Test Issue", "Open", none, none⟩]).1 (by decide),
    (c6_amended_dispatch [c4GoodComment] []
      [⟨"JIRA-1", "Test Issue", "Open", none, none⟩]).2.2.2.2.2 (by decide)⟩

/-- C7: for N issues processed in fan-out mode (N at or above the
threshold), the multiset of issue keys in the result of processIssues
equals the multiset of input issue keys — no drops, no duplicates —
although the output order may differ from input order. -/
theorem c7_fanout_preserves_keys (issues : List RawIssue) (tr : TimeRange)
    (user : User) (out : List Issue) (hlen : 5 ≤ issues.length)
    (hfan : ProcessIssuesFanOut issues tr user out) :
    (out.map Issue.Key).Perm (issues.map RawIssue.key) := by
  obtain ⟨ws, hw, hperm⟩ := hfan
  have hkeys := forall₂_worker_keys tr user issues ws hw
  exact hkeys ▸ hperm.map Issue.Key

/-- Witness for C7 at a concrete 5-issue fan-out. -/
theorem c7_fanout_preserves_keys_witness :
    (c7Out.map Issue.Key).Perm (c7Issues.map RawIssue.key) :=
  c7_fanout_preserves_keys c7Issues rangeEx userEx c7Out (by decide)
    ⟨c7Out,
      by simp [c7Out, c7Issues, List.forall₂_cons, WorkerOutputFor,
        convertRawIssue],
      List.Perm.refl _⟩

/-- C8: IsInRange is start-inclusive and end-exclusive: it returns true
iff start <= t < end; in particular t equal to the start (of a
non-degenerate range) yields true and t equal to the end yields
false. -/
theorem c8_isInRange_boundary (tr : TimeRange) (t : JTime) :
    (tr.IsInRange t = true ↔
      tr.Start.epochMillis ≤ t.epochMillis ∧
        t.epochMillis < tr.End.epochMillis) ∧
    (tr.Start.epochMillis < tr.End.epochMillis →
      tr.IsInRange tr.Start = true) ∧
    tr.IsInRange tr.End = false := by
  refine ⟨?_, ?_, ?_⟩ <;>
    simp [TimeRange.IsInRange, JTime.equalT, JTime.afterT, JTime.beforeT] <;>
    omega

/-- Witness for C8 at a concrete range. -/
theorem c8_isInRange_boundary_witness :
    rangeEx.IsInRange rangeEx.Start = true ∧
      rangeEx.IsInRange rangeEx.End = false :=
  ⟨(c8_isInRange_boundary rangeEx rangeEx.Start).2.1 (by decide),
    (c8_isInRange_boundary rangeEx ⟨0, 0⟩).2.2⟩

set_option maxRecDepth 8000 in
/-- C9 counterexample: with two issues in two different status groups,
two admissible iteration orders of the status-group map give different
markdown and HTML bytes, so Format run twice on the very same report is
not byte-identical for these formatters. -/
theorem c9_order_counterexample :
    ValidStatusOrder c9MultiReport ["Open", "Done"] ∧
    ValidStatusOrder c9MultiReport ["Done", "Open"] ∧
    markdownFormat ["Open", "Done"] c9MultiReport ≠
      markdownFormat ["Done", "Open"] c9MultiReport ∧
    htmlFormat ["Open", "Done"] c9MultiReport ≠
      htmlFormat ["Done", "Open"] c9MultiReport := by
  refine ⟨?_, ?_, ?_, ?_⟩ <;> first
    | (unfold ValidStatusOrder; decide)
    | decide

/-- C9 amended: the JSON and XML formatters are pure functions of the
report; the markdown and HTML formatters are pure functions of the
report and of the status-group iteration order, and whenever the
report's issues span at most one status group (so the iteration order
is forced) repeated calls are byte-identical for all four
formatters. -/
theorem c9_amended_determinism (r : ActivityReport) (o1 o2 : List String)
    (h1 : ValidStatusOrder r o1) (h2 : ValidStatusOrder r o2)
    (hone : (statusKeys r).length ≤ 1) :
    markdownFormat o1 r = markdownFormat o2 r ∧
    htmlFormat o1 r = htmlFormat o2 r ∧
    jsonFormat r = jsonFormat r ∧
    xmlFormat r = xmlFormat r := by
  have e1 : o1 = statusKeys r := perm_short_eq h1 hone
  have e2 : o2 = statusKeys r := perm_short_eq h2 hone
  rw [e1, e2]
  exact ⟨rfl, rfl, rfl, rfl⟩

/-- Witness for the amended C9 at a concrete single-status report. -/
theorem c9_amended_determinism_witness :
    markdownFormat ["In Progress"] c9SingleReport =
      markdownFormat ["In Progress"] c9SingleReport ∧
    htmlFormat ["In Progress"] c9SingleReport =
      htmlFormat ["In Progress"] c9SingleReport ∧
    jsonFormat c9SingleReport = jsonFormat c9SingleReport ∧
    xmlFormat c9SingleReport = xmlFormat c9SingleReport :=
  c9_amended_determinism c9SingleReport ["In Progress"] ["In Progress"]
    (by unfold ValidStatusOrder; decide)
    (by unfold ValidStatusOrder; decide)
    (by decide)

/-- C10: in the GetIssues conversion, an absent (nil) raw comments or
changelog container leaves the domain Issue's Comments or Changes field
nil, while a present container always yields a non-nil sequence — in
particular a non-nil empty one when every entry is filtered out — so
callers can observe nil versus empty at the Issue interface. -/
theorem c10_nil_vs_empty (tr : TimeRange) (uid : String) (raw : RawIssue) :
    (raw.comments = none → (convertRawIssue tr uid raw).Comments = none) ∧
    (∀ cs, raw.comments = some cs →
      (convertRawIssue tr uid raw).Comments =
        some (processComments cs tr) ∧
      (convertRawIssue tr uid raw).Comments ≠ none) ∧
    (raw.changelog = none → (convertRawIssue tr uid raw).Changes = none) ∧
    (∀ hs, raw.changelog = some hs →
      (convertRawIssue tr uid raw).Changes =
        some (processChangelog hs tr uid) ∧
      (convertRawIssue tr uid raw).Changes ≠ none) := by
  refine ⟨fun h => ?_, fun cs h => ?_, fun h => ?_, fun hs h => ?_⟩ <;>
    simp [convertRawIssue, h]

/-- Witness for C10: a nil container maps to a nil field while a
present container whose entries are all filtered out maps to a non-nil
empty sequence. -/
theorem c10_nil_vs_empty_witness :
    (convertRawIssue rangeEx "user123" c10RawNil).Comments = none ∧
    (convertRawIssue rangeEx "user123" c10RawNil).Changes = none ∧
    (convertRawIssue rangeEx "user123" c10RawPresent).Comments = some [] ∧
    (convertRawIssue rangeEx "user123" c10RawPresent).Changes = some [] ∧
    some ([] : List Comment) ≠ (none : Option (List Comment)) := by
  refine ⟨(c10_nil_vs_empty rangeEx "user123" c10RawNil).1 rfl,
    (c10_nil_vs_empty rangeEx "user123" c10RawNil).2.2.1 rfl, ?_, ?_, by simp⟩
  · have h := ((c10_nil_vs_empty rangeEx "user123" c10RawPresent).2.1
      [c10StaleComment] rfl).1
    rw [h]
    decide
  · have h := ((c10_nil_vs_empty rangeEx "user123" c10RawPresent).2.2.2
      [] rfl).1
    rw [h]
    rfl
